import Mathlib

/-!
# Verification of the backbone.drupal session / entity layer

A shallow embedding of the session, CSRF-token, entity-model and sync
logic of `backbone.drupal.js` (the IIFE installing `Backbone.Drupal`),
together with proofs of the specified properties.

JavaScript values are modelled by the inductive type `JSVal`; numbers are
modelled as integers (the code only ever manipulates integral numbers and
`parseInt` results).  `parseInt` and string-to-number coercion are
modelled for decimal notation, which covers every value the code
produces or consumes.
-/

namespace BackboneDrupal

/-- A JavaScript value, as far as the library manipulates them:
`null`, `undefined`, booleans, (integral) numbers and strings. -/
inductive JSVal where
  | jnull
  | jundef
  | jbool (b : Bool)
  | jnum (n : Int)
  | jstr (s : String)
deriving DecidableEq

/-- Value of a non-empty list of decimal digits. -/
def digitsVal (cs : List Char) : Nat :=
  cs.foldl (fun a c => a * 10 + (c.toNat - 48)) 0

/-- JavaScript `parseInt` on a string (decimal): skip leading spaces,
optional sign, then a maximal run of digits; `none` models `NaN`. -/
def parseIntStr (s : String) : Option Int :=
  match s.data.dropWhile (fun c => c = ' ') with
  | '-' :: rest =>
    let ds := rest.takeWhile Char.isDigit
    if ds.isEmpty then none else some (-(digitsVal ds : Int))
  | '+' :: rest =>
    let ds := rest.takeWhile Char.isDigit
    if ds.isEmpty then none else some ((digitsVal ds : Int))
  | cs =>
    let ds := cs.takeWhile Char.isDigit
    if ds.isEmpty then none else some ((digitsVal ds : Int))

/-- JavaScript `parseInt(value)`: numbers pass through (they are already
integral in this model), strings are parsed, every other value
stringifies to a non-numeric word and yields `NaN` (`none`). -/
def parseIntJS : JSVal → Option Int
  | .jnum n => some n
  | .jstr s => parseIntStr s
  | _ => none

/-- `Entity.convertInteger`: booleans map to 1/0; otherwise
`parseInt`, with `NaN` falling back to 0. -/
def convertInteger : JSVal → JSVal
  | .jbool b => .jnum (if b then 1 else 0)
  | v =>
    match parseIntJS v with
    | none => .jnum 0
    | some n => .jnum n

/-- `Entity.convertBoolInput`: booleans pass through; otherwise
`parseInt`, with `NaN` falling back to `false` and any value `> 0`
mapping to `true`. -/
def convertBoolInput : JSVal → JSVal
  | .jbool b => .jbool b
  | v =>
    match parseIntJS v with
    | none => .jbool false
    | some n => .jbool (decide (0 < n))

/-- `Entity.convertBoolOutput`: numbers `> 0`, `true`, and the strings
`"1"`/`"true"` map to `true`; everything else maps to `null`. -/
def convertBoolOutput : JSVal → JSVal
  | .jnum n => if 0 < n then .jbool true else .jnull
  | .jbool b => if b then .jbool true else .jnull
  | .jstr s => if s = "1" ∨ s = "true" then .jbool true else .jnull
  | _ => .jnull

/-- An attribute record (a JavaScript object) as an association list. -/
abbrev Attrs := List (String × JSVal)

/-- Property read: `attributes[k]`; `none` models an absent key. -/
def getAttr (a : Attrs) (k : String) : Option JSVal :=
  (a.find? (fun p => p.1 = k)).map (fun p => p.2)

/-- The guard `typeof attributes[key] !== 'undefined'`: an update is
skipped both when the key is absent and when its value is `undefined`. -/
def applyUnlessUndef (f : JSVal → JSVal) (v : JSVal) : JSVal :=
  if v = .jundef then v else f v

/-- `attributes[key] = f(attributes[key])` guarded by the `typeof`
check, leaving the record unchanged when the key is absent. -/
def coerceAt (f : JSVal → JSVal) (k : String) (a : Attrs) : Attrs :=
  a.map (fun p => if p.1 = k then (p.1, applyUnlessUndef f p.2) else p)

/-- `_.each(keys, function (key) { ... attributes[key] = f(...) ... })`. -/
def coerceFields (f : JSVal → JSVal) (keys : List String) (a : Attrs) : Attrs :=
  keys.foldl (fun acc k => coerceAt f k acc) a

/-- `delete attributes[k]`. -/
def removeAttr (a : Attrs) (k : String) : Attrs :=
  a.filter (fun p => ¬ p.1 = k)

/-- Property write `attributes[k] = v` (replace in place, else append). -/
def putAttr (a : Attrs) (k : String) (v : JSVal) : Attrs :=
  if (a.find? (fun p => p.1 = k)).isSome then
    a.map (fun p => if p.1 = k then (k, v) else p)
  else a ++ [(k, v)]

/-- The per-variant class-level configuration of an entity model. -/
structure EntityConfig where
  idKey : String
  entityType : String
  bundleKey : Option String
  labelKey : String
  booleanFields : List String
  integerFields : List String
deriving DecidableEq

/-- `Entity.prototype.toJSON`: copy the attributes, re-coerce the
integer fields, re-coerce the boolean fields (output direction), and
delete `rdf_mapping`. -/
def toJSON (cfg : EntityConfig) (a : Attrs) : Attrs :=
  removeAttr
    (coerceFields convertBoolOutput cfg.booleanFields
      (coerceFields convertInteger cfg.integerFields a))
    "rdf_mapping"

/-- `Entity.prototype.cleanInput`: coerce integer fields, boolean fields
(input direction), and always the id field to integer. -/
def cleanInput (cfg : EntityConfig) (values : Attrs) : Attrs :=
  coerceAt convertInteger cfg.idKey
    (coerceFields convertBoolInput cfg.booleanFields
      (coerceFields convertInteger cfg.integerFields values))

/-- `Entity.prototype.set` restricted to a batch update: clean the input
and merge it into the current attributes (Backbone merge semantics). -/
def modelSet (cfg : EntityConfig) (a new : Attrs) : Attrs :=
  (cleanInput cfg new).foldl (fun acc kv => putAttr acc kv.1 kv.2) a

/-- JavaScript string coercion of the values the library handles. -/
def jsToString : JSVal → String
  | .jnull => "null"
  | .jundef => "undefined"
  | .jbool b => if b then "true" else "false"
  | .jnum n => toString n
  | .jstr s => s

/-- Characters `encodeURIComponent` leaves unescaped. -/
def uriUnreserved (c : Char) : Bool :=
  c.isAlphanum || c = '-' || c = '_' || c = '.' || c = '!' || c = '~' ||
    c = '*' || c = Char.ofNat 39 || c = '(' || c = ')'

/-- Upper-case hexadecimal digit. -/
def hexDigit (n : Nat) : Char :=
  if n < 10 then Char.ofNat (48 + n) else Char.ofNat (55 + n)

/-- Percent-encoding of one byte. -/
def pctEncodeByte (b : Nat) : List Char :=
  ['%', hexDigit (b / 16), hexDigit (b % 16)]

/-- Encoding of one character: unreserved characters pass through,
everything else is the percent-encoding of its UTF-8 bytes. -/
def encodeChar (c : Char) : List Char :=
  if uriUnreserved c then [c]
  else ((String.singleton c).toUTF8.toList.map (fun b => pctEncodeByte b.toNat)).flatten

/-- JavaScript `encodeURIComponent`. -/
def encodeURIComponent (s : String) : String :=
  ⟨(s.data.map encodeChar).flatten⟩

/-- Backbone `isNew()`: the id attribute is absent, `null` or
`undefined`. -/
def isNew (cfg : EntityConfig) (a : Attrs) : Bool :=
  match getAttr a cfg.idKey with
  | none => true
  | some .jnull => true
  | some .jundef => true
  | some _ => false

/-- `Entity.prototype.url`: `/` + entityType, plus `/` + the escaped id
when the model is not new. -/
def entityUrl (cfg : EntityConfig) (a : Attrs) : String :=
  let root := "/" ++ cfg.entityType
  if isNew cfg a then root
  else root ++ "/" ++ encodeURIComponent (jsToString ((getAttr a cfg.idKey).getD .jundef))

/-- Class-level configuration of `Backbone.Drupal.Model.File`. -/
def fileConfig : EntityConfig :=
  ⟨"fid", "file", some "type", "filename", [],
    ["filesize", "status", "timestamp", "uid"]⟩

/-- The `fileContents` instance property of the File model. -/
def defaultFileContents : JSVal := .jnum 0

/-- The `imageStyles` instance property of the File model. -/
def defaultImageStyles : JSVal := .jnum 1

/-- `File.prototype.url`: the entity url, with the
`file_contents`/`image_styles` query string appended when not new. -/
def fileUrl (fileContents imageStyles : JSVal) (a : Attrs) : String :=
  let url := entityUrl fileConfig a
  if isNew fileConfig a then url
  else
    url ++ "?file_contents=" ++ jsToString (convertInteger fileContents)
      ++ "&image_styles=" ++ jsToString (convertInteger imageStyles)

/-- Class-level configuration of `Backbone.Drupal.Model.Node`. -/
def nodeConfig : EntityConfig :=
  ⟨"nid", "node", some "type", "title",
    ["status", "sticky", "promote"],
    ["changed", "cid", "comment", "comment_count", "created",
      "last_comment_timestamp", "last_comment_uid", "revision_timestamp",
      "revision_uid", "tnid", "translate", "uid", "vid"]⟩

/-- Class-level configuration of `Backbone.Drupal.Model.User`. -/
def userConfig : EntityConfig :=
  ⟨"uid", "user", none, "name", [],
    ["access", "created", "login", "status"]⟩

/-! ## Token store (`getCsrfToken` / `setCsrfToken` / `resetCsrfToken`) -/

/-- The process-wide `getCsrfToken.token` slot: initially `undefined`
(`unset`), `false` after `resetCsrfToken` (`fls`), or a string after
`setCsrfToken`. -/
inductive CsrfCache where
  | unset
  | fls
  | str (s : String)
deriving DecidableEq

/-- The truthiness test `!getCsrfToken.token`: `some t` exactly when the
slot holds a truthy value (a non-empty string), which is the value the
cached branch of `getCsrfToken` resolves with. -/
def cachedToken : CsrfCache → Option String
  | .str s => if s = "" then none else some s
  | _ => none

/-- `setCsrfToken(token)`: overwrite the slot unconditionally. -/
def setCsrfToken (_c : CsrfCache) (t : String) : CsrfCache := .str t

/-- `resetCsrfToken()`: set the slot to `false`. -/
def resetCsrfToken (_c : CsrfCache) : CsrfCache := .fls

/-- Outcome of the `/user/token` ajax call, supplied by the
environment. -/
inductive FetchOutcome where
  | ok (token : String)
  | err
deriving DecidableEq

/-- Result of one `getCsrfToken()` call: the network requests it issued
(by URL, in order), the cache afterwards, and the promise outcome
(`some t` = resolved with `t`, `none` = rejected). -/
structure TokenGetResult where
  reqs : List String
  cache : CsrfCache
  result : Option String
deriving DecidableEq

/-- `getCsrfToken()`: resolve the cached token when the slot is truthy;
otherwise POST to `appRoot + '/user/token'`, store the returned token
via `setCsrfToken` and resolve it (a failed fetch propagates the
rejection and leaves the slot alone). -/
def getCsrfToken (root : String) (c : CsrfCache) (o : FetchOutcome) : TokenGetResult :=
  match cachedToken c with
  | some t => ⟨[], c, some t⟩
  | none =>
    match o with
    | .ok t => ⟨[root ++ "/user/token"], setCsrfToken c t, some t⟩
    | .err => ⟨[root ++ "/user/token"], c, none⟩

/-! ## The `Backbone.sync` override -/

/-- An xhr, observed through the `setRequestHeader` calls made on it,
in order. -/
abbrev Xhr := List (String × String)

/-- `xhr.setRequestHeader(h, v)`. -/
def setRequestHeader (x : Xhr) (h v : String) : Xhr := x ++ [(h, v)]

/-- The caller-relevant request options: an optional URL override and an
optional caller-supplied `beforeSend` hook. -/
structure SyncOpts where
  url : Option String
  beforeSend : Option (Xhr → Xhr)

/-- The request handed to the underlying `_sync` transport. -/
structure SyncDispatch where
  url : String
  withCredentials : Bool
  beforeSend : Xhr → Xhr

/-- The `Backbone.sync` override: resolve the URL against `appRoot`,
force credentials, await `getCsrfToken()`, and on success hand `_sync`
options whose `beforeSend` first sets the `X-CSRF-Token` header and then
runs the caller's hook; on token failure `_sync` is never called. -/
def sync (root modelUrl : String) (opts : SyncOpts) (c : CsrfCache) (o : FetchOutcome) :
    TokenGetResult × Option SyncDispatch :=
  let url := root ++ (opts.url.getD modelUrl)
  let g := getCsrfToken root c o
  match g.result with
  | none => (g, none)
  | some token =>
    (g, some ⟨url, true,
      fun xhr => (opts.beforeSend.getD id) (setRequestHeader xhr "X-CSRF-Token" token)⟩)

/-! ## The Session state machine

`Session.login` chains two POSTs (`/system/connect`, then possibly
`/user/login`); `Session.logout` POSTs `/user/logout`.  The event-loop
interleaving is modelled by a step relation over `Sys`: an event is a
call into the session or the arrival of a network response, and `step`
runs the synchronous code (the continuation the source attaches with
`.done`) that the event triggers.  The model tracks one login call at a
time (`callLogin` is only enabled while no login POST is in flight),
which matches the sample applications, and records every network
request issued, in order. -/

/-- Progress of the current `login(...)` call. -/
inductive LoginPhase where
  | idle
  | awaitingConnect
  | awaitingUserLogin
  | done
  | failed
deriving DecidableEq

/-- State of the jQuery deferred returned by the current `login(...)`
call (`noCall` before any login has been started). -/
inductive Dfr where
  | noCall
  | pending
  | resolved
deriving DecidableEq

/-- JavaScript loose equality `v == 0`, used by `data.user.uid != 0`.
String-to-number coercion is modelled for decimal notation. -/
def looseEqZero : JSVal → Bool
  | .jnum n => n = 0
  | .jbool b => !b
  | .jstr s =>
    match parseIntStr s with
    | some n => n = 0
    | none => s.data.all (fun c => c = ' ')
  | .jnull => false
  | .jundef => false

/-- The whole mutable state: the Session's `loggedIn` attribute, the
attributes of `session.user`, the token slot, login/logout progress, and
the log of issued network requests (by URL, in order). -/
structure Sys where
  loggedIn : Bool
  userAttrs : Attrs
  csrf : CsrfCache
  phase : LoginPhase
  dfr : Dfr
  logoutInFlight : Bool
  reqs : List String
deriving DecidableEq

/-- The state at application start: `defaults: {loggedIn: false}`, a
fresh empty user model, no token, nothing in flight. -/
def initSys : Sys := ⟨false, [], .unset, .idle, .noCall, false, []⟩

/-- The synchronous part of `Session.login`: when already logged in the
deferred is resolved at once with `this.user` (returned as `some`),
otherwise the `/system/connect` POST is issued and the deferred is left
pending. -/
def loginStart (s : Sys) : Sys × Option Attrs :=
  if s.loggedIn then (s, some s.userAttrs)
  else
    ({ s with
        phase := .awaitingConnect,
        dfr := .pending,
        reqs := s.reqs ++ ["/system/connect"] }, none)

/-- Whether a login POST is in flight. -/
def loginInFlight : LoginPhase → Bool
  | .awaitingConnect => true
  | .awaitingUserLogin => true
  | _ => false

/-- Events: calls into the session and network responses. -/
inductive Ev where
  | callLogin
  | connectOk (user : Attrs)
  | connectFail
  | userLoginOk (token : String) (user : Attrs)
  | userLoginFail
  | callLogout
  | logoutOk
  | logoutFail
deriving DecidableEq

/-- One step of the event loop; `none` when the event is not enabled in
the given state (no matching request is in flight). -/
def step (s : Sys) : Ev → Option Sys
  | .callLogin =>
    if loginInFlight s.phase then none else some (loginStart s).1
  | .connectOk u =>
    if s.phase = .awaitingConnect then
      let s1 := { s with loggedIn := true }
      if looseEqZero ((getAttr u "uid").getD .jundef) then
        some { s1 with
                phase := .awaitingUserLogin,
                reqs := s1.reqs ++ ["/user/login"] }
      else
        some { s1 with
                userAttrs := modelSet userConfig s1.userAttrs u,
                phase := .done,
                dfr := .resolved }
    else none
  | .connectFail =>
    if s.phase = .awaitingConnect then some { s with phase := .failed } else none
  | .userLoginOk t u =>
    if s.phase = .awaitingUserLogin then
      some { s with
              csrf := setCsrfToken s.csrf t,
              userAttrs := modelSet userConfig s.userAttrs u,
              phase := .done,
              dfr := .resolved }
    else none
  | .userLoginFail =>
    if s.phase = .awaitingUserLogin then some { s with phase := .failed } else none
  | .callLogout =>
    if s.logoutInFlight then none
    else
      some { s with
              logoutInFlight := true,
              reqs := s.reqs ++ ["/user/logout"] }
  | .logoutOk =>
    if s.logoutInFlight then
      some { s with
              csrf := resetCsrfToken s.csrf,
              loggedIn := false,
              logoutInFlight := false }
    else none
  | .logoutFail =>
    if s.logoutInFlight then some { s with logoutInFlight := false } else none

/-- Run a sequence of events from a state. -/
def run (s : Sys) : List Ev → Option Sys
  | [] => some s
  | e :: t =>
    match step s e with
    | none => none
    | some s1 => run s1 t

/-! ## Claim-side predicates (stated from the specification's words, for
comparison with the code-derived definitions above) -/

/-- The specification's truthiness condition for the boolean output
coercion: numeric values greater than 0, boolean `true`, and the strings
`"1"` and `"true"`. -/
def specBoolOutputTrue : JSVal → Bool
  | .jnum n => 0 < n
  | .jbool b => b
  | .jstr s => s = "1" || s = "true"
  | _ => false

/-- The specification's notion of "a successful authentication exchange
has completed": some connect response reported a non-anonymous uid, or
some credential login succeeded. -/
def specAuthCompleted (t : List Ev) : Bool :=
  t.any fun e =>
    match e with
    | .connectOk u => !looseEqZero ((getAttr u "uid").getD .jundef)
    | .userLoginOk _ _ => true
    | _ => false

/-- The specification's "user holds a server-confirmed non-anonymous
identity": the user model's uid is a number distinct from 0. -/
def userConfirmed (a : Attrs) : Bool :=
  match getAttr a "uid" with
  | some (.jnum n) => n ≠ 0
  | _ => false

/-! ## Concrete states and traces used as witnesses -/

/-- The state after a completed successful login (connect reported
uid 3). -/
def sLoggedIn : Sys :=
  ⟨true, [("uid", JSVal.jnum 3)], .unset, .done, .resolved, false, ["/system/connect"]⟩

/-- The state right after `login` issued its `/system/connect` POST. -/
def sConnInit : Sys :=
  ⟨false, [], .unset, .awaitingConnect, .pending, false, ["/system/connect"]⟩

/-- The state after `login` issued `/system/connect` and that POST
failed. -/
def sConnFailed : Sys :=
  ⟨false, [], .unset, .failed, .pending, false, ["/system/connect"]⟩

/-- A state in which a logout POST is in flight. -/
def sLogoutPending : Sys :=
  ⟨true, [("uid", JSVal.jnum 3)], .str "tok", .done, .resolved, true,
    ["/system/connect", "/user/logout"]⟩

/-- The state after the logout POST of `sLogoutPending` succeeded. -/
def sAfterLogoutOk : Sys :=
  ⟨false, [("uid", JSVal.jnum 3)], .fls, .done, .resolved, false,
    ["/system/connect", "/user/logout"]⟩

/-- The state after the logout POST of `sLogoutPending` failed. -/
def sAfterLogoutFail : Sys :=
  ⟨true, [("uid", JSVal.jnum 3)], .str "tok", .done, .resolved, false,
    ["/system/connect", "/user/logout"]⟩

/-- Request options with a caller-supplied `beforeSend` hook. -/
def optsW : SyncOpts :=
  ⟨none, some (fun x => setRequestHeader x "Accept" "application/json")⟩

/-- The trace in which `/system/connect` reports the anonymous user and
the credential POST to `/user/login` then fails. -/
def traceBadLogin : List Ev :=
  [Ev.callLogin, Ev.connectOk [("uid", JSVal.jnum 0)], Ev.userLoginFail]

/-! ## Lemmas about attribute records -/

theorem getAttr_cons (p : String × JSVal) (t : Attrs) (q : String) :
    getAttr (p :: t) q = if p.1 = q then some p.2 else getAttr t q := by
  by_cases h : p.1 = q <;> simp [getAttr, List.find?, h]

theorem getAttr_coerceAt (f : JSVal → JSVal) (k : String) (a : Attrs) (q : String) :
    getAttr (coerceAt f k a) q =
      if q = k then (getAttr a q).map (applyUnlessUndef f) else getAttr a q := by
  induction a with
  | nil => by_cases h : q = k <;> simp [coerceAt, getAttr, h]
  | cons p t ih =>
    have hc : coerceAt f k (p :: t) =
        (if p.1 = k then (p.1, applyUnlessUndef f p.2) else p) :: coerceAt f k t := rfl
    by_cases hpk : p.1 = k
    · by_cases hpq : p.1 = q
      · simp [hc, hpk, getAttr_cons, hpq, hpq ▸ hpk]
      · have hqk : ¬ q = k := fun h => hpq (hpk.trans h.symm)
        have hkq : ¬ k = q := fun h => hqk h.symm
        simp [hc, hpk, getAttr_cons, hpq, hqk, hkq, ih]
    · by_cases hpq : p.1 = q
      · have hqk : ¬ q = k := fun h => hpk (hpq.trans h)
        simp [hc, hpk, getAttr_cons, hpq, hqk]
      · simp [hc, hpk, getAttr_cons, hpq, ih]

theorem getAttr_coerceFields (f : JSVal → JSVal) (keys : List String) (a : Attrs)
    (q : String) (hnd : keys.Nodup) :
    getAttr (coerceFields f keys a) q =
      if q ∈ keys then (getAttr a q).map (applyUnlessUndef f) else getAttr a q := by
  induction keys generalizing a with
  | nil => simp [coerceFields]
  | cons k ks ih =>
    have hks : coerceFields f (k :: ks) a = coerceFields f ks (coerceAt f k a) := rfl
    have hnd2 := (List.nodup_cons.mp hnd).2
    have hkn := (List.nodup_cons.mp hnd).1
    by_cases hqk : q = k
    · subst hqk
      simp [hks, ih _ hnd2, hkn, getAttr_coerceAt]
    · by_cases hqks : q ∈ ks
      · simp [hks, ih _ hnd2, hqks, getAttr_coerceAt, hqk]
      · simp [hks, ih _ hnd2, hqks, getAttr_coerceAt, hqk]

theorem getAttr_removeAttr (a : Attrs) (k q : String) :
    getAttr (removeAttr a k) q = if q = k then none else getAttr a q := by
  induction a with
  | nil => by_cases h : q = k <;> simp [removeAttr, getAttr, h]
  | cons p t ih =>
    by_cases hpk : p.1 = k
    · have hr : removeAttr (p :: t) k = removeAttr t k := by
        simp [removeAttr, hpk]
      by_cases hqk : q = k
      · subst hqk
        simp [hr, ih]
      · have hpq : ¬ p.1 = q := fun h => hqk ((h.symm.trans hpk))
        simp [hr, ih, hqk, getAttr_cons, hpq]
    · have hr : removeAttr (p :: t) k = p :: removeAttr t k := by
        simp [removeAttr, hpk]
      by_cases hqk : q = k
      · subst hqk
        simp [hr, ih, getAttr_cons, hpk]
      · simp [hr, ih, hqk, getAttr_cons]

/-! ## Claim theorems -/

/-- C3: for every value of a boolean-configured field, the output
coercion used during serialization maps numbers greater than 0, boolean
`true`, and the strings `"1"` and `"true"` to `true`, and maps every
other value (including `false`, 0, `"0"` and `null`) to the absent
sentinel `null`; in particular it never returns an explicit `false`. -/
theorem convertBoolOutput_spec :
    ∀ v : JSVal,
      convertBoolOutput v = (if specBoolOutputTrue v then .jbool true else .jnull) ∧
      convertBoolOutput v ≠ .jbool false := by
  intro v
  cases v with
  | jnum n => by_cases h : 0 < n <;> simp [convertBoolOutput, specBoolOutputTrue, h]
  | jbool b => cases b <;> simp [convertBoolOutput, specBoolOutputTrue]
  | jstr s =>
    by_cases h1 : s = "1" <;> by_cases h2 : s = "true" <;>
      simp [convertBoolOutput, specBoolOutputTrue, h1, h2]
  | jnull => simp [convertBoolOutput, specBoolOutputTrue]
  | jundef => simp [convertBoolOutput, specBoolOutputTrue]

/-- C2 (counterexample): a file model with identity 7 does not compute
the resource path `/file/7?file_contents=0&image_styles=0`; the
`imageStyles` instance property is 1, not 0. -/
theorem file_url_query_counterexample :
    fileUrl defaultFileContents defaultImageStyles [("fid", JSVal.jnum 7)] ≠
      "/file/7?file_contents=0&image_styles=0" := by
  decide

/-- C2 (amended): for every file entity model that is not new, the
computed resource path appends the query parameters `file_contents=0`
and `image_styles=1` to the id-qualified path; in particular a file
model with identity 7 computes `/file/7?file_contents=0&image_styles=1`. -/
theorem file_url_query_amended :
    (∀ a : Attrs, isNew fileConfig a = false →
        fileUrl defaultFileContents defaultImageStyles a =
          entityUrl fileConfig a ++ "?file_contents=0&image_styles=1") ∧
    fileUrl defaultFileContents defaultImageStyles [("fid", JSVal.jnum 7)] =
      "/file/7?file_contents=0&image_styles=1" := by
  constructor
  · intro a h
    have h0 : jsToString (convertInteger defaultFileContents) = "0" := rfl
    have h1 : jsToString (convertInteger defaultImageStyles) = "1" := rfl
    simp only [fileUrl, h, Bool.false_eq_true, if_false, h0, h1, String.append_assoc]
    congr 1
  · decide

/-- C2 (witness for the amended theorem): the amended statement at the
file record `{fid: 7}`. -/
theorem file_url_query_amended_witness :
    fileUrl defaultFileContents defaultImageStyles [("fid", JSVal.jnum 7)] =
      entityUrl fileConfig [("fid", JSVal.jnum 7)] ++ "?file_contents=0&image_styles=1" :=
  file_url_query_amended.1 [("fid", JSVal.jnum 7)] (by decide)

/-- C4: `toJSON` returns the full attribute set, with the integer
coercion re-applied to every field listed in `integerFields`, the
boolean output coercion re-applied to every field listed in
`booleanFields` (both, in that order, to a field listed in both), every
other field unchanged, and the key `rdf_mapping` never present in the
result, even when it is present in the in-memory attributes. -/
theorem entity_toJSON_spec (cfg : EntityConfig) (a : Attrs)
    (hI : cfg.integerFields.Nodup) (hB : cfg.booleanFields.Nodup) :
    getAttr (toJSON cfg a) "rdf_mapping" = none ∧
    (∀ k, k ≠ "rdf_mapping" → k ∈ cfg.integerFields → k ∉ cfg.booleanFields →
        getAttr (toJSON cfg a) k = (getAttr a k).map (applyUnlessUndef convertInteger)) ∧
    (∀ k, k ≠ "rdf_mapping" → k ∉ cfg.integerFields → k ∈ cfg.booleanFields →
        getAttr (toJSON cfg a) k = (getAttr a k).map (applyUnlessUndef convertBoolOutput)) ∧
    (∀ k, k ≠ "rdf_mapping" → k ∈ cfg.integerFields → k ∈ cfg.booleanFields →
        getAttr (toJSON cfg a) k =
          ((getAttr a k).map (applyUnlessUndef convertInteger)).map
            (applyUnlessUndef convertBoolOutput)) ∧
    (∀ k, k ≠ "rdf_mapping" → k ∉ cfg.integerFields → k ∉ cfg.booleanFields →
        getAttr (toJSON cfg a) k = getAttr a k) := by
  refine ⟨?_, ?_, ?_, ?_, ?_⟩
  · simp [toJSON, getAttr_removeAttr]
  · intro k hk hkI hkB
    simp [toJSON, getAttr_removeAttr, hk,
      getAttr_coerceFields _ _ _ _ hB, getAttr_coerceFields _ _ _ _ hI, hkI, hkB]
  · intro k hk hkI hkB
    simp [toJSON, getAttr_removeAttr, hk,
      getAttr_coerceFields _ _ _ _ hB, getAttr_coerceFields _ _ _ _ hI, hkI, hkB]
  · intro k hk hkI hkB
    simp [toJSON, getAttr_removeAttr, hk,
      getAttr_coerceFields _ _ _ _ hB, getAttr_coerceFields _ _ _ _ hI, hkI, hkB]
  · intro k hk hkI hkB
    simp [toJSON, getAttr_removeAttr, hk,
      getAttr_coerceFields _ _ _ _ hB, getAttr_coerceFields _ _ _ _ hI, hkI, hkB]

/-- C4 (witness): the serialization contract at the Node configuration
and a record that carries an `rdf_mapping` key. -/
theorem entity_toJSON_spec_witness :
    getAttr
      (toJSON nodeConfig
        [("nid", JSVal.jnum 4), ("status", JSVal.jnum 0),
          ("uid", JSVal.jstr "9"), ("rdf_mapping", JSVal.jstr "x"),
          ("title", JSVal.jstr "t")])
      "rdf_mapping" = none :=
  (entity_toJSON_spec nodeConfig
    [("nid", JSVal.jnum 4), ("status", JSVal.jnum 0),
      ("uid", JSVal.jstr "9"), ("rdf_mapping", JSVal.jstr "x"),
      ("title", JSVal.jstr "t")] (by decide) (by decide)).1

/-- C5: if the Session is already authenticated, `login` leaves the
state untouched — in particular it issues zero network requests — and
resolves immediately with the identical current user model. -/
theorem login_short_circuit (s : Sys) (h : s.loggedIn = true) :
    loginStart s = (s, some s.userAttrs) ∧ (loginStart s).1.reqs = s.reqs := by
  simp [loginStart, h]

/-- C5 (witness): a second login call in the state reached by a
successful login short-circuits. -/
theorem login_short_circuit_witness :
    run initSys [Ev.callLogin, Ev.connectOk [("uid", JSVal.jnum 3)]] = some sLoggedIn ∧
    loginStart sLoggedIn = (sLoggedIn, some sLoggedIn.userAttrs) :=
  ⟨by decide, (login_short_circuit sLoggedIn (by decide)).1⟩

/-- C8: when the logout POST succeeds, the token store is cleared and
`loggedIn` becomes false, while the cached user model's attributes are
left unchanged (and no further request is issued). -/
theorem logout_success_effect (s s1 : Sys) (h : s.logoutInFlight = true)
    (hs : step s .logoutOk = some s1) :
    s1.csrf = resetCsrfToken s.csrf ∧ cachedToken s1.csrf = none ∧
    s1.loggedIn = false ∧ s1.userAttrs = s.userAttrs ∧ s1.reqs = s.reqs := by
  simp only [step, h, if_true] at hs
  injection hs with hs
  subst hs
  simp [resetCsrfToken, cachedToken]

/-- C8 (witness): the logout success effect in a concrete authenticated
state with a logout POST in flight. -/
theorem logout_success_effect_witness :
    step sLogoutPending .logoutOk = some sAfterLogoutOk ∧
    sAfterLogoutOk.csrf = resetCsrfToken sLogoutPending.csrf ∧
    cachedToken sAfterLogoutOk.csrf = none ∧
    sAfterLogoutOk.loggedIn = false ∧
    sAfterLogoutOk.userAttrs = sLogoutPending.userAttrs := by
  have h := logout_success_effect sLogoutPending sAfterLogoutOk (by decide) (by decide)
  exact ⟨by decide, h.1, h.2.1, h.2.2.1, h.2.2.2.1⟩

/-- C10: if the logout POST fails, the session state is unchanged:
`loggedIn` keeps its prior value, the token store is not reset, and the
user attributes are untouched. -/
theorem logout_failure_frame (s s1 : Sys) (h : s.logoutInFlight = true)
    (hs : step s .logoutFail = some s1) :
    s1.loggedIn = s.loggedIn ∧ s1.csrf = s.csrf ∧ s1.userAttrs = s.userAttrs ∧
    s1.phase = s.phase ∧ s1.dfr = s.dfr ∧ s1.reqs = s.reqs := by
  simp only [step, h, if_true] at hs
  injection hs with hs
  subst hs
  simp

/-- C10 (witness): the logout failure frame condition in a concrete
state with a logout POST in flight. -/
theorem logout_failure_frame_witness :
    step sLogoutPending .logoutFail = some sAfterLogoutFail ∧
    sAfterLogoutFail.loggedIn = sLogoutPending.loggedIn ∧
    sAfterLogoutFail.csrf = sLogoutPending.csrf ∧
    sAfterLogoutFail.userAttrs = sLogoutPending.userAttrs := by
  have h := logout_failure_frame sLogoutPending sAfterLogoutFail (by decide) (by decide)
  exact ⟨by decide, h.1, h.2.1, h.2.2.1⟩

/-- C6: `getCsrfToken` resolves the cached token without any network
request when one is cached; otherwise it issues exactly one request to
`/user/token`, stores the returned token, and resolves it; after
`resetCsrfToken` the next call fetches afresh. -/
theorem token_store_get_spec :
    (∀ root c o t, cachedToken c = some t → getCsrfToken root c o = ⟨[], c, some t⟩) ∧
    (∀ root c t, cachedToken c = none →
        getCsrfToken root c (.ok t) =
          ⟨[root ++ "/user/token"], CsrfCache.str t, some t⟩) ∧
    (∀ root c t, getCsrfToken root (resetCsrfToken c) (.ok t) =
        ⟨[root ++ "/user/token"], CsrfCache.str t, some t⟩) := by
  refine ⟨?_, ?_, ?_⟩
  · intro root c o t h
    simp [getCsrfToken, h]
  · intro root c t h
    simp [getCsrfToken, h, setCsrfToken]
  · intro root c t
    simp [getCsrfToken, resetCsrfToken, cachedToken, setCsrfToken]

/-- C6 (witness): the token store contract at concrete caches. -/
theorem token_store_get_spec_witness :
    getCsrfToken "" (.str "tok") .err = ⟨[], .str "tok", some "tok"⟩ ∧
    getCsrfToken "" .unset (.ok "t2") = ⟨["" ++ "/user/token"], CsrfCache.str "t2", some "t2"⟩ ∧
    getCsrfToken "" (resetCsrfToken (.str "tok")) (.ok "t3") =
      ⟨["" ++ "/user/token"], CsrfCache.str "t3", some "t3"⟩ :=
  ⟨token_store_get_spec.1 "" (.str "tok") .err "tok" (by decide),
    token_store_get_spec.2.1 "" .unset "t2" (by decide),
    token_store_get_spec.2.2 "" (.str "tok") "t3"⟩

/-- C7: a request goes through the sync layer only if `getCsrfToken`
resolves; the dispatched request's `beforeSend` sets the `X-CSRF-Token`
header to the resolved token before running any caller-supplied hook;
if token retrieval fails the underlying transport is never invoked. -/
theorem sync_token_header_spec :
    ∀ (root modelUrl : String) (opts : SyncOpts) (c : CsrfCache) (o : FetchOutcome),
      ((getCsrfToken root c o).result = none → (sync root modelUrl opts c o).2 = none) ∧
      (∀ t, (getCsrfToken root c o).result = some t →
        ∃ d, (sync root modelUrl opts c o).2 = some d ∧
          d.withCredentials = true ∧
          ∀ xhr : Xhr, d.beforeSend xhr =
            (opts.beforeSend.getD id) (setRequestHeader xhr "X-CSRF-Token" t)) := by
  intro root modelUrl opts c o
  constructor
  · intro h
    simp [sync, h]
  · intro t h
    exact ⟨⟨root ++ (opts.url.getD modelUrl), true,
      fun xhr => (opts.beforeSend.getD id) (setRequestHeader xhr "X-CSRF-Token" t)⟩,
      by simp [sync, h], rfl, fun xhr => rfl⟩

/-- C7 (witness): the sync contract at a concrete failing token fetch
and a concrete successful one, with a caller-supplied hook present. -/
theorem sync_token_header_spec_witness :
    ((sync "" "/node" optsW CsrfCache.unset FetchOutcome.err).2 = none) ∧
    (∃ d, (sync "" "/node" optsW CsrfCache.unset (FetchOutcome.ok "tok")).2 = some d ∧
      d.withCredentials = true ∧
      ∀ xhr : Xhr, d.beforeSend xhr =
        (optsW.beforeSend.getD id) (setRequestHeader xhr "X-CSRF-Token" "tok")) :=
  ⟨(sync_token_header_spec "" "/node" optsW CsrfCache.unset FetchOutcome.err).1 rfl,
    (sync_token_header_spec "" "/node" optsW CsrfCache.unset (FetchOutcome.ok "tok")).2
      "tok" rfl⟩

/-- C1 (code bug): after `/system/connect` reports the anonymous uid 0
and the credential POST to `/user/login` fails, the session's
`loggedIn` attribute is `true` although no successful authentication
exchange has completed and the user model holds no server-confirmed
identity — `login` sets `loggedIn` as soon as the connect POST
succeeds, before the credential exchange finishes. -/
theorem session_loggedIn_invariant_violated :
    (run initSys traceBadLogin).map (fun s => (s.loggedIn, userConfirmed s.userAttrs)) =
      some (true, false) ∧
    specAuthCompleted traceBadLogin = false := by
  decide

/-! ## Lemmas for the login-failure analysis (C9) -/

theorem step_from_failed (s : Sys) (e : Ev) (s1 : Sys)
    (hs : step s e = some s1) (hne : e ≠ .callLogin) (hp : s.phase = .failed) :
    s1.phase = .failed ∧ s1.dfr = s.dfr := by
  cases e with
  | callLogin => exact absurd rfl hne
  | connectOk u => simp [step, hp] at hs
  | connectFail => simp [step, hp] at hs
  | userLoginOk t u => simp [step, hp] at hs
  | userLoginFail => simp [step, hp] at hs
  | callLogout =>
    simp only [step] at hs
    split at hs
    · exact absurd hs (by simp)
    · injection hs with h
      subst h
      exact ⟨hp, rfl⟩
  | logoutOk =>
    simp only [step] at hs
    split at hs
    · injection hs with h
      subst h
      exact ⟨hp, rfl⟩
    · exact absurd hs (by simp)
  | logoutFail =>
    simp only [step] at hs
    split at hs
    · injection hs with h
      subst h
      exact ⟨hp, rfl⟩
    · exact absurd hs (by simp)

theorem step_from_done (s : Sys) (e : Ev) (s1 : Sys)
    (hs : step s e = some s1) (hne : e ≠ .callLogin) (hp : s.phase = .done) :
    s1.phase = .done ∧ s1.dfr = s.dfr ∧ e ≠ .connectFail ∧ e ≠ .userLoginFail := by
  cases e with
  | callLogin => exact absurd rfl hne
  | connectOk u => simp [step, hp] at hs
  | connectFail => simp [step, hp] at hs
  | userLoginOk t u => simp [step, hp] at hs
  | userLoginFail => simp [step, hp] at hs
  | callLogout =>
    simp only [step] at hs
    split at hs
    · exact absurd hs (by simp)
    · injection hs with h
      subst h
      exact ⟨hp, rfl, fun h => Ev.noConfusion h, fun h => Ev.noConfusion h⟩
  | logoutOk =>
    simp only [step] at hs
    split at hs
    · injection hs with h
      subst h
      exact ⟨hp, rfl, fun h => Ev.noConfusion h, fun h => Ev.noConfusion h⟩
    · exact absurd hs (by simp)
  | logoutFail =>
    simp only [step] at hs
    split at hs
    · injection hs with h
      subst h
      exact ⟨hp, rfl, fun h => Ev.noConfusion h, fun h => Ev.noConfusion h⟩
    · exact absurd hs (by simp)

theorem run_from_failed (t : List Ev) :
    ∀ s0 s, run s0 t = some s → Ev.callLogin ∉ t → s0.phase = .failed →
      s.phase = .failed ∧ s.dfr = s0.dfr := by
  induction t with
  | nil =>
    intro s0 s h _ hp
    simp only [run, Option.some.injEq] at h
    subst h
    exact ⟨hp, rfl⟩
  | cons e t ih =>
    intro s0 s h hni hp
    have hne : e ≠ Ev.callLogin := fun he => hni (he ▸ List.mem_cons_self e t)
    have hnit : Ev.callLogin ∉ t := fun hm => hni (List.mem_cons_of_mem e hm)
    simp only [run] at h
    cases hst : step s0 e with
    | none =>
      rw [hst] at h
      exact absurd h (by simp)
    | some s1 =>
      rw [hst] at h
      have h12 := step_from_failed s0 e s1 hst hne hp
      have h3 := ih s1 s h hnit h12.1
      exact ⟨h3.1, h3.2.trans h12.2⟩

theorem run_from_done (t : List Ev) :
    ∀ s0 s, run s0 t = some s → Ev.callLogin ∉ t → s0.phase = .done →
      Ev.connectFail ∉ t ∧ Ev.userLoginFail ∉ t := by
  induction t with
  | nil =>
    intro s0 s _ _ _
    exact ⟨by simp, by simp⟩
  | cons e t ih =>
    intro s0 s h hni hp
    have hne : e ≠ Ev.callLogin := fun he => hni (he ▸ List.mem_cons_self e t)
    have hnit : Ev.callLogin ∉ t := fun hm => hni (List.mem_cons_of_mem e hm)
    simp only [run] at h
    cases hst : step s0 e with
    | none =>
      rw [hst] at h
      exact absurd h (by simp)
    | some s1 =>
      rw [hst] at h
      have hd := step_from_done s0 e s1 hst hne hp
      have ht := ih s1 s h hnit hd.1
      constructor
      · intro hm
        rcases List.mem_cons.mp hm with h1 | h1
        · exact hd.2.2.1 h1.symm
        · exact ht.1 h1
      · intro hm
        rcases List.mem_cons.mp hm with h1 | h1
        · exact hd.2.2.2 h1.symm
        · exact ht.2 h1

theorem failure_mem_tail (e : Ev) (t : List Ev)
    (h1 : e ≠ .connectFail) (h2 : e ≠ .userLoginFail)
    (hmem : Ev.connectFail ∈ e :: t ∨ Ev.userLoginFail ∈ e :: t) :
    Ev.connectFail ∈ t ∨ Ev.userLoginFail ∈ t := by
  rcases hmem with hm | hm
  · rcases List.mem_cons.mp hm with h | h
    · exact absurd h.symm h1
    · exact Or.inl h
  · rcases List.mem_cons.mp hm with h | h
    · exact absurd h.symm h2
    · exact Or.inr h

theorem run_awaiting_failure_pending (t : List Ev) :
    ∀ s0 s, run s0 t = some s → Ev.callLogin ∉ t → s0.dfr = .pending →
      loginInFlight s0.phase = true →
      (Ev.connectFail ∈ t ∨ Ev.userLoginFail ∈ t) → s.dfr = .pending := by
  induction t with
  | nil =>
    intro s0 s _ _ _ _ hmem
    rcases hmem with hm | hm <;> simp at hm
  | cons e t ih =>
    intro s0 s h hni hd hph hmem
    have hne : e ≠ Ev.callLogin := fun he => hni (he ▸ List.mem_cons_self e t)
    have hnit : Ev.callLogin ∉ t := fun hm => hni (List.mem_cons_of_mem e hm)
    simp only [run] at h
    cases hst : step s0 e with
    | none =>
      rw [hst] at h
      exact absurd h (by simp)
    | some s1 =>
      rw [hst] at h
      cases e with
      | callLogin => exact absurd rfl hne
      | connectOk u =>
        have hmem2 := failure_mem_tail _ t (fun hh => Ev.noConfusion hh)
          (fun hh => Ev.noConfusion hh) hmem
        simp only [step] at hst
        split at hst
        case isTrue hpc =>
          split at hst
          case isTrue huid =>
            injection hst with h1
            subst h1
            exact ih _ s h hnit hd rfl hmem2
          case isFalse huid =>
            injection hst with h1
            subst h1
            have hnof := run_from_done t _ s h hnit rfl
            rcases hmem2 with hm | hm
            · exact absurd hm hnof.1
            · exact absurd hm hnof.2
        case isFalse hpc => exact absurd hst (by simp)
      | connectFail =>
        simp only [step] at hst
        split at hst
        case isTrue hpc =>
          injection hst with h1
          subst h1
          have hf := run_from_failed t _ s h hnit rfl
          exact hf.2.trans hd
        case isFalse hpc => exact absurd hst (by simp)
      | userLoginOk tok u =>
        have hmem2 := failure_mem_tail _ t (fun hh => Ev.noConfusion hh)
          (fun hh => Ev.noConfusion hh) hmem
        simp only [step] at hst
        split at hst
        case isTrue hpc =>
          injection hst with h1
          subst h1
          have hnof := run_from_done t _ s h hnit rfl
          rcases hmem2 with hm | hm
          · exact absurd hm hnof.1
          · exact absurd hm hnof.2
        case isFalse hpc => exact absurd hst (by simp)
      | userLoginFail =>
        simp only [step] at hst
        split at hst
        case isTrue hpc =>
          injection hst with h1
          subst h1
          have hf := run_from_failed t _ s h hnit rfl
          exact hf.2.trans hd
        case isFalse hpc => exact absurd hst (by simp)
      | callLogout =>
        have hmem2 := failure_mem_tail _ t (fun hh => Ev.noConfusion hh)
          (fun hh => Ev.noConfusion hh) hmem
        simp only [step] at hst
        split at hst
        · exact absurd hst (by simp)
        · injection hst with h1
          subst h1
          exact ih _ s h hnit hd hph hmem2
      | logoutOk =>
        have hmem2 := failure_mem_tail _ t (fun hh => Ev.noConfusion hh)
          (fun hh => Ev.noConfusion hh) hmem
        simp only [step] at hst
        split at hst
        · injection hst with h1
          subst h1
          exact ih _ s h hnit hd hph hmem2
        · exact absurd hst (by simp)
      | logoutFail =>
        have hmem2 := failure_mem_tail _ t (fun hh => Ev.noConfusion hh)
          (fun hh => Ev.noConfusion hh) hmem
        simp only [step] at hst
        split at hst
        · injection hst with h1
          subst h1
          exact ih _ s h hnit hd hph hmem2
        · exact absurd hst (by simp)

/-- C9: in every execution in which the `login` call's `/system/connect`
POST or its credential `/user/login` POST fails, the deferred returned
by `login` is never resolved — it stays pending for the rest of the
execution (no failure handler is attached anywhere in `login`). -/
theorem login_failure_never_resolves (t : List Ev) (s : Sys)
    (h : run initSys (Ev.callLogin :: t) = some s)
    (hni : Ev.callLogin ∉ t)
    (hfail : Ev.connectFail ∈ t ∨ Ev.userLoginFail ∈ t) :
    s.dfr = .pending := by
  have hst : step initSys Ev.callLogin = some sConnInit := by decide
  simp only [run] at h
  rw [hst] at h
  exact run_awaiting_failure_pending t sConnInit s h hni rfl rfl hfail

/-- C9 (witness): the execution in which the connect POST fails leaves
the login deferred pending. -/
theorem login_failure_never_resolves_witness :
    sConnFailed.dfr = Dfr.pending :=
  login_failure_never_resolves [Ev.connectFail] sConnFailed (by decide) (by decide)
    (Or.inl (by decide))

end BackboneDrupal
